import Mathlib

/-!
Verification of the datajoint-babel grammar model: a shallow embedding of
the row-level micro-parsers (`Comment`, `Attribute`, `Dependency`), the
data-type grammar (`DJ_Type`), and the table-level assembler
(`Table.from_definition`) together with the serializers (`make`), plus
theorems settling the specification claims about them.

Strings are modelled as `List Char` (`Str`).  Python exceptions are
modelled by an `Err` type returned through `Except`:
`Err.parseError` models the repository's `ParseError` raised by
`ParseError.format_raise(format, input)`, `Err.notImplemented` models
`NotImplementedError`, `Err.pyparsingError` models the
`pyparsing.ParseException` raised by the external `attribute_parser`,
`Err.valueError` models Python's `ValueError` (tuple-unpacking failure),
and `Err.validationError` models `pydantic.ValidationError`.
-/

namespace DJBabel

/-- Strings are modelled as lists of characters. -/
abbrev Str := List Char

/-- Python whitespace characters used by `str.strip` and pyparsing (ASCII). -/
def isPySpace (c : Char) : Bool :=
  c = ' ' || c = '\t' || c = '\n' || c = '\x0d' || c = '\x0b' || c = '\x0c'

/-- Python `str.strip()` with no argument: remove leading and trailing
whitespace. -/
def stripStr (s : Str) : Str :=
  ((s.dropWhile isPySpace).reverse.dropWhile isPySpace).reverse

/-- Python `str.rstrip(chars)`: remove trailing characters that belong to the
character set `chars` (NOT suffix removal). -/
def rstripSet (chars : Str) (s : Str) : Str :=
  (s.reverse.dropWhile (fun c => chars.contains c)).reverse

/-- Python `str.startswith(pat)`. -/
def startsWithStr : Str → Str → Bool
  | _, [] => true
  | [], _ :: _ => false
  | c :: cs, p :: ps => c = p && startsWithStr cs ps

/-- Python `pat in s` substring containment (true for the empty pattern). -/
def containsSubstr (s pat : Str) : Bool :=
  if startsWithStr s pat then true
  else
    match s with
    | [] => false
    | _ :: t => containsSubstr t pat

/-- Python `str.split(sep)` for a one-character separator `sep`: split at every
occurrence, keeping empty pieces. -/
def splitOnChar (sep : Char) : Str → List Str
  | [] => [[]]
  | c :: t =>
    let r := splitOnChar sep t
    if c = sep then [] :: r
    else
      match r with
      | h :: t2 => (c :: h) :: t2
      | [] => [[c]]

/-- Python `str.lower()` (ASCII case folding suffices for this grammar). -/
def lowerStr (s : Str) : Str := s.map Char.toLower

instance {ε α : Type} [DecidableEq ε] [DecidableEq α] : DecidableEq (Except ε α) :=
  fun x y =>
    match x, y with
    | .ok a, .ok b =>
      if h : a = b then isTrue (by rw [h])
      else isFalse (by intro he; cases he; exact h rfl)
    | .error a, .error b =>
      if h : a = b then isTrue (by rw [h])
      else isFalse (by intro he; cases he; exact h rfl)
    | .ok _, .error _ => isFalse (by intro he; cases he)
    | .error _, .ok _ => isFalse (by intro he; cases he)

/-- Errors modelling the Python exceptions the source can raise. -/
inductive Err where
  /-- the repository's `ParseError` via `format_raise(format, input)` -/
  | parseError (format input : Str)
  /-- `NotImplementedError` (index declarations) -/
  | notImplemented
  /-- `pyparsing.ParseException` from the external `attribute_parser` -/
  | pyparsingError
  /-- `ValueError` (tuple unpacking of a wrong-sized list) -/
  | valueError
  /-- `pydantic.ValidationError` -/
  | validationError
  deriving DecidableEq, Repr

/-- The closed set of type keywords (`DATATYPES` in `constants.py`). -/
def DATATYPES : List Str :=
  ["tinyint".data, "smallint".data, "mediumint".data, "int".data,
   "enum".data, "date".data, "time".data, "datetime".data,
   "timestamp".data, "char".data, "varchar".data, "float".data,
   "double".data, "decimal".data, "blob".data, "tinyblob".data,
   "mediumblob".data, "longblob".data, "attach".data, "filepath".data]

/-- The recognized tier names (`TIERS` in `constants.py`; note the source's
`Literal` omits `Part`). -/
def TIERS : List Str :=
  ["Manual".data, "Lookup".data, "Imported".data, "Computed".data]

/-- Validated shape of `DJ_Type.args` after pydantic coercion against
`Optional[Union[int, List[int], List[str]]]`. -/
inductive Args where
  | int (n : Int)
  | intList (l : List Int)
  | strList (l : List Str)
  deriving DecidableEq, Repr

/-- Representation of a datajoint type (`DJ_Type` in `attribute.py`),
after pydantic validation. -/
structure DJ_Type where
  datatype : Str
  args : Option Args
  unsigned : Bool
  deriving DecidableEq, Repr

/-- Digits of a decimal numeral, or `none` when the list is empty or has a
non-digit. -/
def natOfDigits : Str → Option Nat
  | [] => none
  | ds =>
    if ds.all Char.isDigit then
      some (ds.foldl (fun acc c => acc * 10 + (c.toNat - 48)) 0)
    else none

/-- Python `int(s)` on a string: optional surrounding whitespace, optional
sign, then decimal digits (numeric underscores and non-ASCII digits are not
exercised by this grammar). `none` models the `ValueError` pydantic turns
into a failed `int` coercion. -/
def pyInt (s : Str) : Option Int :=
  match stripStr s with
  | '+' :: ds => (natOfDigits ds).map Int.ofNat
  | '-' :: ds => (natOfDigits ds).map (fun n => -(n : Int))
  | ds => (natOfDigits ds).map Int.ofNat

/-- Raw value handed to the pydantic `args` field before coercion: either a
Python `str` or a `list` of `str`. -/
inductive RawArg where
  | str (s : Str)
  | list (l : List Str)
  deriving DecidableEq, Repr

/-- Pydantic v1 coercion of `Optional[Union[int, List[int], List[str]]]`,
trying the union members left to right: a string must coerce to `int`
(a bare string is not accepted for the list types); a list becomes
`List[int]` when every element coerces, else `List[str]`. -/
def validateArgs : Option RawArg → Except Err (Option Args)
  | none => .ok none
  | some (.str s) =>
    match pyInt s with
    | some n => .ok (some (.int n))
    | none => .error .validationError
  | some (.list l) =>
    match l.mapM pyInt with
    | some ns => .ok (some (.intList ns))
    | none => .ok (some (.strList l))

/-- Pydantic validation performed by constructing `DJ_Type(...)`: `datatype`
must be one of `DATATYPES`, `args` is coerced by `validateArgs`. -/
def mkDJ_Type (datatype : Str) (args : Option RawArg) (unsigned : Bool) :
    Except Err DJ_Type :=
  if datatype ∈ DATATYPES then
    match validateArgs args with
    | .ok a => .ok ⟨datatype, a, unsigned⟩
    | .error e => .error e
  else .error .validationError

/-- Python `'@'.split(input)` for an `input` that contains `'@'` (the branch
guard in `DJ_Type.from_string`): the one-character string `"@"` is split by
the separator `input`, giving `['', '']` when `input == '@'` and the
singleton `['@']` otherwise (no other string containing `'@'` occurs
inside `"@"`). -/
def atSplit (input : Str) : List Str :=
  if input = ['@'] then [[], []] else [['@']]

/-- The `parse.parse("{datatype}({args})", input)` pattern: matches exactly
when `input = d ++ "(" ++ a ++ ")"` with `d` the nonempty prefix before the
first `'('`, `a` nonempty, and the final character `')'`. -/
def parseParameterized (s : Str) : Option (Str × Str) :=
  let d := s.takeWhile (fun c => c ≠ '(')
  let rest := s.dropWhile (fun c => c ≠ '(')
  match rest with
  | '(' :: inner =>
    if d = [] then none
    else
      match inner.getLast? with
      | some ')' => if inner.dropLast = [] then none else some (d, inner.dropLast)
      | _ => none
  | _ => none

/-- Translation of `DJ_Type.from_string` (`attribute.py` lines 77-103),
including its use of `'unsigned' in input`, `input.rstrip(' unsigned')`,
`'@'.split(input)` and the pydantic validation of the constructed value. -/
def DJ_Type.from_string (input : Str) : Except Err DJ_Type :=
  let p :=
    if containsSubstr input "unsigned".data then
      (true, rstripSet " unsigned".data input)
    else (false, input)
  let unsigned := p.1
  let input := p.2
  if containsSubstr input "@".data then
    match atSplit input with
    | [d, a] => mkDJ_Type d (some (.str a)) false
    | _ => .error .valueError
  else
    let input := stripStr input
    match parseParameterized input with
    | none => mkDJ_Type input none unsigned
    | some (d, a) =>
      if containsSubstr a ",".data then
        mkDJ_Type d (some (.list (splitOnChar ',' a))) unsigned
      else mkDJ_Type d (some (.str a)) unsigned

/-- Python `str(n)` for an integer. -/
def intToStr (n : Int) : Str :=
  (toString n).data

/-- Python `','.join(args)` after `str` conversion of each element. -/
def joinComma : List Str → Str
  | [] => []
  | [x] => x
  | x :: xs => x ++ ",".data ++ joinComma xs

/-- Python truthiness of the `args` field value. -/
def argsTruthy : Option Args → Bool
  | none => false
  | some (.int n) => n ≠ 0
  | some (.intList l) => l ≠ []
  | some (.strList l) => l ≠ []

/-- String rendering of the `args` value as interpolated by the f-strings in
`DJ_Type.make`. -/
def argsRender : Args → Str
  | .int n => intToStr n
  | .intList l => joinComma (l.map intToStr)
  | .strList l => joinComma l

/-- Translation of `DJ_Type.make` (`attribute.py` lines 61-75). -/
def DJ_Type.make (t : DJ_Type) : Str :=
  let typestr := t.datatype
  let typestr :=
    if argsTruthy t.args then
      match t.args with
      | some a =>
        if t.datatype = "filepath".data then typestr ++ "@".data ++ argsRender a
        else
          match a with
          | .intList l => typestr ++ "(".data ++ joinComma (l.map intToStr) ++ ")".data
          | .strList l => typestr ++ "(".data ++ joinComma l ++ ")".data
          | .int n => typestr ++ "(".data ++ intToStr n ++ ")".data
      | none => typestr
    else typestr
  if t.unsigned then typestr ++ " unsigned".data else typestr

/-- Lowercase ASCII letter, pyparsing `srange("[a-z]")` (the initial
character class of `attribute_name`). -/
def isNameInit (c : Char) : Bool := 'a' ≤ c && c ≤ 'z'

/-- Body character class of `attribute_name`, pyparsing `srange("[a-z0-9_]")`. -/
def isNameBody (c : Char) : Bool := isNameInit c || c.isDigit || c = '_'

/-- ASCII letter, pyparsing `alphas` (initial `Word` of `data_type`). -/
def isAsciiAlpha (c : Char) : Bool := isNameInit c || ('A' ≤ c && c ≤ 'Z')

/-- Split at the first occurrence of character `c`: `some (before, after)`
with `c` itself removed, or `none` when `c` does not occur. -/
def breakAtChar (c : Char) (s : Str) : Option (Str × Str) :=
  match s.dropWhile (fun x => x ≠ c) with
  | _ :: rest => some (s.takeWhile (fun x => x ≠ c), rest)
  | [] => none

/-- Result fields of the external `attribute_parser` (`pieces` in
`Attribute.from_string`). -/
structure AttrPieces where
  name : Str
  default : Option Str
  type : Str
  comment : Str
  deriving DecidableEq, Repr

/-- Model of the external datajoint `attribute_parser` pyparsing grammar
`attribute_name + Optional('=' + SkipTo(':')) + ':' +
Combine(Word(alphas) + SkipTo('#')) + '#' + restOfLine`, matching the spec's
row form `name [= default] : type [# comment]`.  The grammar's
quoted-string escapes for `:` and `#` inside string literals are not
exercised by any claim and are not modelled; the `default` capture keeps
the raw text between `=` and the first `:`. -/
def parseAttrPieces (s : Str) : Except Err AttrPieces :=
  match s.dropWhile isPySpace with
  | [] => .error .pyparsingError
  | c :: rest =>
    if isNameInit c then
      let name := c :: rest.takeWhile isNameBody
      let s1 := (rest.dropWhile isNameBody).dropWhile isPySpace
      let dcol : Except Err (Option Str × Str) :=
        match s1 with
        | '=' :: afterEq =>
          match breakAtChar ':' afterEq with
          | some (d, s2) => .ok (some d, s2)
          | none => .error .pyparsingError
        | ':' :: s2 => .ok (none, s2)
        | _ => .error .pyparsingError
      match dcol with
      | .error e => .error e
      | .ok (dflt, s2) =>
        let s3 := s2.dropWhile isPySpace
        let word := s3.takeWhile isAsciiAlpha
        if word = [] then .error .pyparsingError
        else
          match breakAtChar '#' (s3.dropWhile isAsciiAlpha) with
          | some (mid, cm) => .ok ⟨name, dflt, word ++ mid, cm⟩
          | none => .error .pyparsingError
    else .error .pyparsingError

/-- The `index` part of the regex `^(unique\s+)?index[^:]*$`: a
case-insensitive `index` prefix followed by colon-free text to the end. -/
def matchIndexCore (s : Str) : Bool :=
  startsWithStr (lowerStr s) "index".data && (s.drop 5).all (fun c => c ≠ ':')

/-- The guard regex of `Attribute.from_string`:
`re.match(r"^(unique\s+)?index[^:]*$", input, re.I)`. -/
def isIndexRegexMatch (s : Str) : Bool :=
  matchIndexCore s ||
  (startsWithStr (lowerStr s) "unique".data &&
    !((s.drop 6).takeWhile isPySpace = []) &&
    matchIndexCore ((s.drop 6).dropWhile isPySpace))

/-- A field row (`Attribute` in `attribute.py`), after pydantic validation. -/
structure Attribute where
  name : Str
  datatype : DJ_Type
  comment : Option Str
  default : Option Str
  deriving DecidableEq, Repr

/-- Translation of `Attribute.from_string` (`attribute.py` lines 134-150):
reject index declarations with `NotImplementedError`, run the external
`attribute_parser` on `input + '#'`, post-process the comment with
`rstrip('#').strip()`, and parse the type token. -/
def Attribute.from_string (input : Str) : Except Err Attribute :=
  if isIndexRegexMatch input then .error .notImplemented
  else
    match parseAttrPieces (input ++ "#".data) with
    | .error e => .error e
    | .ok p =>
      let cm := stripStr (rstripSet "#".data p.comment)
      match DJ_Type.from_string p.type with
      | .error e => .error e
      | .ok dt => .ok ⟨p.name, dt, some cm, p.default⟩

/-- Python truthiness of an `Optional[str]` value (`None` and `''` falsy). -/
def optStrTruthy : Option Str → Bool
  | some s => !(s = [])
  | none => false

/-- Translation of `Attribute.make` (`attribute.py` lines 123-131). -/
def Attribute.make (a : Attribute) : Str :=
  if optStrTruthy a.comment && optStrTruthy a.default then
    a.name ++ " = ".data ++ a.default.getD [] ++ " : ".data ++ a.datatype.make
      ++ " # ".data ++ a.comment.getD []
  else if optStrTruthy a.comment then
    a.name ++ " : ".data ++ a.datatype.make ++ " # ".data ++ a.comment.getD []
  else if optStrTruthy a.default then
    a.name ++ " = ".data ++ a.default.getD [] ++ " : ".data ++ a.datatype.make
  else
    a.name ++ " : ".data ++ a.datatype.make

/-- A table-level comment row (`Comment` in `attribute.py`). -/
structure Comment where
  comment : Str
  deriving DecidableEq, Repr

/-- The `Comment._format` class variable. -/
def commentFormat : Str := "# {comment}".data

/-- Translation of `Comment.from_string`: `parse.parse("# {comment}", input)`
matches exactly the strings `"# " ++ c` with `c` nonempty; on failure
`ParseError.format_raise` raises with the format and the input. -/
def Comment.from_string (input : Str) : Except Err Comment :=
  if startsWithStr input "# ".data && !(input.drop 2 = []) then .ok ⟨input.drop 2⟩
  else .error (.parseError commentFormat input)

/-- Translation of `Comment.make`: `' '.join(['#', self.comment])`. -/
def Comment.make (c : Comment) : Str := "# ".data ++ c.comment

/-- A foreign-key reference row (`Dependency` in `attribute.py`). -/
structure Dependency where
  dependency : Str
  deriving DecidableEq, Repr

/-- The `Dependency._format` class variable. -/
def dependencyFormat : Str := "-> {dependency}".data

/-- Translation of `Dependency.from_string`:
`parse.parse("-> {dependency}", input)` matches exactly the strings
`"-> " ++ d` with `d` nonempty. -/
def Dependency.from_string (input : Str) : Except Err Dependency :=
  if startsWithStr input "-> ".data && !(input.drop 3 = []) then .ok ⟨input.drop 3⟩
  else .error (.parseError dependencyFormat input)

/-- Translation of `Dependency.make`. -/
def Dependency.make (d : Dependency) : Str := "-> ".data ++ d.dependency

/-- A parsed row of either table section
(`Union[Attribute, Dependency]` in `table.py`). -/
inductive Row where
  | attr (a : Attribute)
  | dep (d : Dependency)
  deriving DecidableEq, Repr

/-- Serialization dispatch on a row. -/
def Row.make : Row → Str
  | .attr a => a.make
  | .dep d => d.make

/-- The parsed table (`Table` in `table.py`), after pydantic validation.
The source declares `attributes` as `Optional[List[...]]`, but every
constructor in scope supplies a list, so it is modelled as a list. -/
structure Table where
  name : Str
  tier : Str
  comment : Option Comment
  keys : List Row
  attributes : List Row
  deriving DecidableEq, Repr

/-- The loop state of `Table.from_definition`
(`passed_keys`, `comment`, `keys`, `attrs`). -/
structure TableState where
  passed_keys : Bool
  comment : Option Comment
  keys : List Row
  attrs : List Row
  deriving DecidableEq, Repr

/-- The state before the first line: `passed_keys = False`, `comment = None`,
`keys = []`, `attrs = []`. -/
def initState : TableState := ⟨false, none, [], []⟩

/-- Body of one iteration of the `for line in lines` loop of
`Table.from_definition` after the `line = line.strip()` reassignment
(`table.py` lines 31-50): skip blank lines, re-capture `#` lines as the
comment, treat lines containing `---` as the divider, route lines
containing `->` to `Dependency.from_string` and all others to
`Attribute.from_string`, appending to the active section. -/
def procStripped (st : TableState) (line : Str) : Except Err TableState :=
  if line = [] then .ok st
  else if startsWithStr line "#".data then
    match Comment.from_string line with
    | .error e => .error e
    | .ok c => .ok { st with comment := some c }
  else if containsSubstr line "---".data then .ok { st with passed_keys := true }
  else
    match
      (if containsSubstr line "->".data then (Dependency.from_string line).map Row.dep
       else (Attribute.from_string line).map Row.attr) with
    | .error e => .error e
    | .ok r =>
      .ok (if st.passed_keys then { st with attrs := st.attrs ++ [r] }
           else { st with keys := st.keys ++ [r] })

/-- One iteration of the loop: `line = line.strip()` then the body. -/
def procLine (st : TableState) (rawLine : Str) : Except Err TableState :=
  procStripped st (stripStr rawLine)

/-- The whole loop of `Table.from_definition`, aborting at the first failing
line (a Python exception propagates out of the loop). -/
def procLines (st : TableState) : List Str → Except Err TableState
  | [] => .ok st
  | l :: ls =>
    match procLine st l with
    | .error e => .error e
    | .ok st2 => procLines st2 ls

/-- Pydantic validation performed by constructing `Table(...)`: `tier` must
be one of the `TIERS` literals; the remaining fields are already of the
declared shapes. -/
def mkTableV (name tier : Str) (comment : Option Comment) (keys attrs : List Row) :
    Except Err Table :=
  if tier ∈ TIERS then .ok ⟨name, tier, comment, keys, attrs⟩
  else .error .validationError

/-- Translation of `Table.from_definition` (`table.py` lines 20-55): split the
body on newlines, run the loop, substitute the string `'MANUAL'` when no
tier was supplied, and construct the (pydantic-validated) `Table`. -/
def Table.from_definition (name definition : Str) (tier : Option Str) :
    Except Err Table :=
  match procLines initState (splitOnChar '\n' definition) with
  | .error e => .error e
  | .ok st => mkTableV name (tier.getD "MANUAL".data) st.comment st.keys st.attrs

/-- Rows of a section rendered with the 4-space indent of `_make_python`. -/
def rowsIndent (rows : List Row) : Str :=
  rows.foldl (fun acc r => acc ++ "    ".data ++ r.make ++ "\n".data) []

/-- Rows of a section rendered with the `# ` prefix of `_make_matlab`. -/
def rowsHash (rows : List Row) : Str :=
  rows.foldl (fun acc r => acc ++ "# ".data ++ r.make ++ "\n".data) []

/-- Translation of `Table._make_python` (`table.py` lines 64-100). -/
def Table.make_python (t : Table) : Str :=
  "@schema\n".data ++ "class ".data ++ t.name ++ "(dj.".data ++ t.tier
    ++ "):\n".data ++ "    definition = \"\"\"\n".data
    ++ (match t.comment with
        | some c => "    ".data ++ c.make ++ "\n".data
        | none => [])
    ++ rowsIndent t.keys
    ++ "    ---\n".data
    ++ rowsIndent t.attributes
    ++ "    \"\"\"".data

/-- Translation of `Table._make_matlab` (`table.py` lines 102-135). -/
def Table.make_matlab (t : Table) : Str :=
  "%\x7b\n".data
    ++ (match t.comment with
        | some c => "# ".data ++ c.make ++ "\n".data
        | none => [])
    ++ rowsHash t.keys
    ++ "---\n".data
    ++ rowsHash t.attributes
    ++ "%\x7d\n\n".data
    ++ "classdef ".data ++ t.name ++ " < dj.".data ++ t.tier ++ "\nend".data

/-- Translation of `Table.make` (`table.py` lines 58-62): dispatch on the
dialect string; any unrecognized dialect falls off the end of the Python
function and returns `None`, modelled as `none`. -/
def Table.make (t : Table) (lang : Str) : Option Str :=
  if lang = "python".data then some t.make_python
  else if lowerStr lang = "matlab".data then some t.make_matlab
  else none

/-- The last stripped `#` line of a block, scanning left to right with later
lines overriding earlier ones. -/
def lastHashLine : List Str → Option Str
  | [] => none
  | l :: ls =>
    match lastHashLine ls with
    | some x => some x
    | none =>
      if startsWithStr (stripStr l) "#".data then some (stripStr l) else none

/-- Characters admissible in the parenthesized column list of an index
declaration: identifier characters, commas and spaces. -/
def isIndexContentChar (c : Char) : Bool :=
  c.isAlphanum || c = '_' || c = ',' || c = ' '

/-- Shape of the text after `index (`: column-list characters followed by the
closing `)`. -/
def indexTail : Str → Bool
  | [] => false
  | [c] => c = ')'
  | c :: rest => isIndexContentChar c && indexTail rest

/-- An index-declaration line as described by the spec: `index (...)` or
`unique index (...)` with a parenthesized column list. -/
def isIndexDeclForm (l : Str) : Bool :=
  (startsWithStr l "index (".data && indexTail (l.drop 7)) ||
  (startsWithStr l "unique index (".data && indexTail (l.drop 14))

/-- A concrete table used to exhibit the serializer's behaviour on
unrecognized dialects. -/
def c5Table : Table :=
  ⟨"Session".data, "Manual".data, none,
   [Row.attr ⟨"a".data, ⟨"int".data, none, false⟩, none, none⟩], []⟩

/-- The assembler state after the valid first key line `a : int`. -/
def c6State : TableState :=
  ⟨false, none, [Row.attr ⟨"a".data, ⟨"int".data, none, false⟩, some [], none⟩], []⟩

/-- The table produced from a body with an empty key section. -/
def c8Table : Table :=
  ⟨"Foo".data, "Manual".data, none, [],
   [Row.attr ⟨"field".data, ⟨"int".data, none, false⟩, some [], none⟩]⟩

/-- The body used to exhibit comment re-capture. -/
def c9Body : Str := "# first\na : int\n# second\n---\nb : int".data

/-- The table the assembler actually produces from `c9Body`: the later `#`
line has replaced the leading comment. -/
def c9Table : Table :=
  ⟨"Foo".data, "Manual".data, some ⟨"second".data⟩,
   [Row.attr ⟨"a".data, ⟨"int".data, none, false⟩, some [], none⟩],
   [Row.attr ⟨"b".data, ⟨"int".data, none, false⟩, some [], none⟩]⟩

/-- A matched prefix decomposes the string. -/
theorem startsWith_decomp : ∀ (p l : Str), startsWithStr l p = true → l = p ++ l.drop p.length
  | [], l, _ => by simp
  | p :: ps, [], h => by simp [startsWithStr] at h
  | p :: ps, c :: cs, h => by
    unfold startsWithStr at h
    obtain ⟨h1, h2⟩ := Bool.and_eq_true_iff.mp h
    have hc : c = p := of_decide_eq_true h1
    subst hc
    simpa using startsWith_decomp ps cs h2

/-- Substring containment is preserved by prepending text. -/
theorem containsSubstr_append_right (x y pat : Str)
    (h : containsSubstr y pat = true) : containsSubstr (x ++ y) pat = true := by
  induction x with
  | nil => simpa using h
  | cons c xs ih =>
    rw [List.cons_append]
    unfold containsSubstr
    split
    · rfl
    · exact ih

/-- A contained nonempty pattern puts its head character in the string. -/
theorem containsSubstr_head_mem : ∀ (s : Str) (c : Char) (p : Str),
    containsSubstr s (c :: p) = true → c ∈ s := by
  intro s
  induction s with
  | nil =>
    intro c p h
    simp [containsSubstr, startsWithStr] at h
  | cons a t ih =>
    intro c p h
    unfold containsSubstr at h
    split at h
    · next hsw =>
      unfold startsWithStr at hsw
      obtain ⟨h1, _⟩ := Bool.and_eq_true_iff.mp hsw
      have : a = c := of_decide_eq_true h1
      exact this ▸ List.mem_cons_self a t
    · exact List.mem_cons_of_mem a (ih c p h)

/-- Stripping is the identity on a string whose first and last characters are
not whitespace. -/
theorem stripStr_eq_self (s : Str)
    (h1 : isPySpace (s.headD ' ') = false)
    (h2 : isPySpace (s.getLastD ' ') = false) : stripStr s = s := by
  rcases List.eq_nil_or_concat s with rfl | ⟨l2, z, rfl⟩
  · simp [isPySpace] at h1
  · have hz : isPySpace z = false := by
      rw [List.concat_eq_append, List.getLastD_eq_getLast?,
        List.getLast?_append_of_ne_nil l2 (by simp)] at h2
      simpa using h2
    rw [List.concat_eq_append]
    unfold stripStr
    cases l2 with
    | nil => simp [List.dropWhile, hz]
    | cons a t =>
      have ha : isPySpace a = false := by simpa using h1
      rw [List.cons_append, List.dropWhile_cons, ha]
      simp only [Bool.false_eq_true, if_false, List.reverse_append,
        List.reverse_cons, List.reverse_nil, List.nil_append, List.cons_append]
      rw [List.dropWhile_cons, hz]
      simp

/-- Unfolding equation for the loop on a cons cell. -/
theorem procLines_cons (st : TableState) (l : Str) (L : List Str) :
    procLines st (l :: L) =
      (match procLine st l with
       | .error e => .error e
       | .ok st2 => procLines st2 L) := rfl

/-- The loop distributes over concatenation of line blocks. -/
theorem procLines_append (xs ys : List Str) : ∀ (st : TableState),
    procLines st (xs ++ ys) =
      (match procLines st xs with
       | .ok st2 => procLines st2 ys
       | .error e => .error e) := by
  induction xs with
  | nil => intro st; rfl
  | cons l ls ih =>
    intro st
    rw [List.cons_append, procLines_cons, procLines_cons]
    cases procLine st l with
    | error e => rfl
    | ok st2 => exact ih st2

/-- One loop iteration in the attribute section leaves `keys` and
`passed_keys` unchanged. -/
theorem procStripped_keys_of_passed (st st2 : TableState) (line : Str)
    (hp : st.passed_keys = true) (h : procStripped st line = .ok st2) :
    st2.keys = st.keys ∧ st2.passed_keys = true := by
  unfold procStripped at h
  split at h
  · cases h; exact ⟨rfl, hp⟩
  · split at h
    · split at h
      · exact absurd h (by simp)
      · cases h; exact ⟨rfl, hp⟩
    · split at h
      · cases h; exact ⟨rfl, rfl⟩
      · split at h
        · exact absurd h (by simp)
        · rw [hp] at h
          cases h
          exact ⟨rfl, rfl⟩

/-- Once the divider has been passed, the whole loop leaves `keys`
unchanged. -/
theorem procLines_keys_of_passed (L : List Str) : ∀ (st st2 : TableState),
    st.passed_keys = true → procLines st L = .ok st2 → st2.keys = st.keys := by
  induction L with
  | nil => intro st st2 _ h; cases h; rfl
  | cons l ls ih =>
    intro st st2 hp h
    rw [procLines_cons] at h
    split at h
    · exact absurd h (by simp)
    · next st1 heq =>
      obtain ⟨hk, hp1⟩ := procStripped_keys_of_passed st st1 (stripStr l) hp heq
      rw [ih st1 st2 hp1 h, hk]

/-- The comment held after one loop iteration: a stripped line starting with
`#` re-captures the comment, every other line preserves it. -/
theorem procStripped_comment (st st2 : TableState) (line : Str)
    (h : procStripped st line = .ok st2) :
    st2.comment =
      (if startsWithStr line "#".data then
        (Comment.from_string line).toOption
       else st.comment) := by
  unfold procStripped at h
  split at h
  · next hblank =>
    cases h
    rw [hblank]
    simp [startsWithStr]
  · split at h
    · next hhash =>
      rw [if_pos hhash]
      split at h
      · exact absurd h (by simp)
      · next c hc => cases h; rw [hc]; rfl
    · next hhash =>
      rw [if_neg hhash]
      split at h
      · cases h; rfl
      · split at h
        · exact absurd h (by simp)
        · cases h
          split
          · rfl
          · rfl

/-- After a successful run of the loop, the held comment is the parse of the
last `#` line, or the initial comment when there is none. -/
theorem procLines_comment (L : List Str) : ∀ (st st2 : TableState),
    procLines st L = .ok st2 →
    st2.comment =
      (match lastHashLine L with
       | some x => (Comment.from_string x).toOption
       | none => st.comment) := by
  induction L with
  | nil => intro st st2 h; cases h; rfl
  | cons l ls ih =>
    intro st st2 h
    rw [procLines_cons] at h
    split at h
    · exact absurd h (by simp)
    · next st1 heq =>
      have hrec := ih st1 st2 h
      show st2.comment = (match lastHashLine (l :: ls) with
        | some x => (Comment.from_string x).toOption
        | none => st.comment)
      unfold lastHashLine
      cases hcase : lastHashLine ls with
      | some x => rw [hcase] at hrec; exact hrec
      | none =>
        rw [hcase] at hrec
        rw [hrec, procStripped_comment st st1 (stripStr l) heq]
        by_cases hsw : startsWithStr (stripStr l) "#".data = true
        · simp [hsw]
        · simp [hsw]

/-- A string starts with itself followed by anything. -/
theorem startsWithStr_append_self (p r : Str) : startsWithStr (p ++ r) p = true := by
  induction p with
  | nil =>
    cases r with
    | nil => rfl
    | cons c cs => rfl
  | cons c cs ih => simp [startsWithStr, ih]

/-- Every character of an index tail is the closing `)` or a column-list
character. -/
theorem indexTail_mem : ∀ (m : Str), indexTail m = true →
    ∀ c ∈ m, c = ')' ∨ isIndexContentChar c = true
  | [], h => by simp [indexTail] at h
  | [x], h => by
    intro c hc
    rw [List.mem_singleton] at hc
    subst hc
    exact Or.inl (of_decide_eq_true h)
  | x :: y :: rest, h => by
    intro c hc
    have h2 := Bool.and_eq_true_iff.mp h
    rcases List.mem_cons.mp hc with rfl | hc2
    · exact Or.inr h2.1
    · exact indexTail_mem (y :: rest) h2.2 c hc2

/-- An index tail ends with the closing parenthesis. -/
theorem indexTail_getLast : ∀ (m : Str), indexTail m = true →
    m.getLast? = some ')'
  | [], h => by simp [indexTail] at h
  | [x], h => by rw [of_decide_eq_true h]; rfl
  | x :: y :: rest, h => by
    rw [List.getLast?_cons_cons]
    exact indexTail_getLast (y :: rest) (Bool.and_eq_true_iff.mp h).2

/-- An index tail is nonempty. -/
theorem indexTail_ne_nil (m : Str) (h : indexTail m = true) : m ≠ [] := by
  intro hm
  rw [hm] at h
  simp [indexTail] at h

/-- An index tail contains no colon. -/
theorem indexTail_all_not_colon (m : Str) (h : indexTail m = true) :
    m.all (fun c => c ≠ ':') = true := by
  rw [List.all_eq_true]
  intro c hc
  rcases indexTail_mem m h c hc with rfl | hcc
  · decide
  · apply decide_eq_true
    intro hcol
    subst hcol
    exact absurd hcc (by decide)

/-- An index tail contains no dash. -/
theorem indexTail_not_mem_dash (m : Str) (h : indexTail m = true) : '-' ∉ m := by
  intro hm
  rcases indexTail_mem m h '-' hm with hd | hd
  · exact absurd hd (by decide)
  · exact absurd hd (by decide)

/-- A string whose characters avoid the pattern head does not contain the
pattern. -/
theorem containsSubstr_eq_false (l : Str) (c : Char) (p : Str) (h : c ∉ l) :
    containsSubstr l (c :: p) = false := by
  cases hc : containsSubstr l (c :: p) with
  | false => rfl
  | true => exact absurd (containsSubstr_head_mem l c p hc) h

/-- A cons cell whose head differs from the pattern head does not start with
the pattern. -/
theorem startsWith_cons_false (c : Char) (rest : Str) (x : Char) (p : Str)
    (h : ¬c = x) : startsWithStr (c :: rest) (x :: p) = false := by
  simp [startsWithStr, h]

/-- The code's index regex accepts `index (` followed by an index tail. -/
theorem matchIndexCore_indexForm (m : Str) (h : indexTail m = true) :
    matchIndexCore ("index (".data ++ m) = true := by
  unfold matchIndexCore
  apply Bool.and_eq_true_iff.mpr
  constructor
  · have h1 : lowerStr ("index (".data ++ m) =
        "index".data ++ (" (".data ++ lowerStr m) := by
      unfold lowerStr
      rw [List.map_append]
      rfl
    rw [h1]
    exact startsWithStr_append_self "index".data (" (".data ++ lowerStr m)
  · show ((' ' :: '(' :: m).all (fun c => c ≠ ':')) = true
    rw [List.all_cons, List.all_cons, indexTail_all_not_colon m h]
    decide

/-- Facts about an index-declaration line needed to trace it through the
assembler: it is nonempty, is not a comment line, contains neither the
divider token nor an arrow, is rejected by `Attribute.from_string` with
`NotImplementedError`, and stripping leaves it unchanged. -/
theorem indexForm_line_facts (l : Str) (h : isIndexDeclForm l = true) :
    l ≠ [] ∧ startsWithStr l "#".data = false ∧
    containsSubstr l "---".data = false ∧ containsSubstr l "->".data = false ∧
    Attribute.from_string l = .error .notImplemented ∧ stripStr l = l := by
  rcases Bool.or_eq_true_iff.mp h with hcase | hcase <;>
    obtain ⟨hsw, htail⟩ := Bool.and_eq_true_iff.mp hcase
  · -- l = "index (" ++ m
    set m := l.drop 7 with hm
    have hl : l = "index (".data ++ m := by
      rw [hm]
      exact startsWith_decomp "index (".data l hsw
    have hdash : '-' ∉ l := by
      rw [hl]
      intro hmem
      rcases List.mem_append.mp hmem with hp | hp
      · exact absurd hp (by decide)
      · exact indexTail_not_mem_dash m htail hp
    have hcore : matchIndexCore l = true := by
      rw [hl]; exact matchIndexCore_indexForm m htail
    have hregex : isIndexRegexMatch l = true := by
      unfold isIndexRegexMatch
      rw [hcore]
      rfl
    refine ⟨?_, ?_, ?_, ?_, ?_, ?_⟩
    · rw [hl]; simp
    · rw [hl]; exact startsWith_cons_false 'i' _ '#' [] (by decide)
    · exact containsSubstr_eq_false l '-' ['-', '-'] hdash
    · exact containsSubstr_eq_false l '-' ['>'] hdash
    · unfold Attribute.from_string
      rw [hregex]
      rfl
    · apply stripStr_eq_self
      · rw [hl]; rfl
      · rw [hl, List.getLastD_eq_getLast?,
          List.getLast?_append_of_ne_nil _ (indexTail_ne_nil m htail),
          indexTail_getLast m htail]
        rfl
  · -- l = "unique index (" ++ m
    set m := l.drop 14 with hm
    have hl : l = "unique index (".data ++ m := by
      rw [hm]
      exact startsWith_decomp "unique index (".data l hsw
    have hdash : '-' ∉ l := by
      rw [hl]
      intro hmem
      rcases List.mem_append.mp hmem with hp | hp
      · exact absurd hp (by decide)
      · exact indexTail_not_mem_dash m htail hp
    have hregex : isIndexRegexMatch l = true := by
      unfold isIndexRegexMatch
      apply Bool.or_eq_true_iff.mpr
      right
      apply Bool.and_eq_true_iff.mpr
      constructor
      · apply Bool.and_eq_true_iff.mpr
        constructor
        · have h1 : lowerStr l = "unique".data ++ (" index (".data ++ lowerStr m) := by
            rw [hl]
            unfold lowerStr
            rw [List.map_append]
            rfl
          rw [h1]
          exact startsWithStr_append_self "unique".data _
        · rw [hl]
          rfl
      · rw [hl]
        show matchIndexCore ("index (".data ++ m) = true
        exact matchIndexCore_indexForm m htail
    refine ⟨?_, ?_, ?_, ?_, ?_, ?_⟩
    · rw [hl]; simp
    · rw [hl]; exact startsWith_cons_false 'u' _ '#' [] (by decide)
    · exact containsSubstr_eq_false l '-' ['-', '-'] hdash
    · exact containsSubstr_eq_false l '-' ['>'] hdash
    · unfold Attribute.from_string
      rw [hregex]
      rfl
    · apply stripStr_eq_self
      · rw [hl]; rfl
      · rw [hl, List.getLastD_eq_getLast?,
          List.getLast?_append_of_ne_nil _ (indexTail_ne_nil m htail),
          indexTail_getLast m htail]
        rfl

/-- Unfolding equation for `Table.from_definition`. -/
theorem from_definition_eq (name s : Str) (tier : Option Str) :
    Table.from_definition name s tier =
      (match procLines initState (splitOnChar '\n' s) with
       | .error e => .error e
       | .ok st => mkTableV name (tier.getD "MANUAL".data) st.comment st.keys st.attrs) := rfl

/-- An attribute-name character is not whitespace. -/
theorem isNameBody_not_space (c : Char) (h : isNameBody c = true) :
    isPySpace c = false := by
  cases hs : isPySpace c with
  | false => rfl
  | true =>
    exfalso
    have : ((((c = ' ' ∨ c = '\t') ∨ c = '\n') ∨ c = '\x0d') ∨ c = '\x0b') ∨ c = '\x0c' := by
      simpa [isPySpace] using hs
    rcases this with ((((rfl | rfl) | rfl) | rfl) | rfl) | rfl <;>
      exact absurd h (by decide)

/-- An attribute-name character is not the comment marker. -/
theorem isNameBody_ne_hash (c : Char) (h : isNameBody c = true) : ¬c = '#' := by
  intro hc
  subst hc
  exact absurd h (by decide)

/-- An attribute-name character is not a dash. -/
theorem isNameBody_ne_dash (c : Char) (h : isNameBody c = true) : ¬c = '-' := by
  intro hc
  subst hc
  exact absurd h (by decide)

/-- A string containing a nonempty pattern is nonempty. -/
theorem ne_nil_of_containsSubstr (s : Str) (c : Char) (p : Str)
    (h : containsSubstr s (c :: p) = true) : s ≠ [] := by
  intro hs
  rw [hs] at h
  simp [containsSubstr, startsWithStr] at h

/-- C1: the claim states that `Table.from_definition(name, body)` with no
tier argument returns a `Table` whose tier equals `'Manual'`.  Evaluating
the code on a well-formed body shows that it instead fails: the source
substitutes the string `'MANUAL'`, which is not among the `TIERS`
literals, so the pydantic validation of the constructed `Table` raises
`ValidationError` (the field declaration `tier: TIERS = 'Manual'` shows
the intended default). -/
theorem from_definition_no_tier_fails :
    Table.from_definition "Foo".data "a : int\n---\nb : int".data none =
      .error Err.validationError := rfl

/-- C2: the claim states that a token `name@store` parses to a filepath
type with the store name as parameter.  Evaluating the code shows it
raises instead: the source computes `'@'.split(input)` (splitting the
one-character string `"@"` by the whole token), which yields the single
piece `['@']`, and unpacking two names from it raises `ValueError`. -/
theorem from_string_filepath_value_error :
    DJ_Type.from_string "filepath@store".data = .error Err.valueError := rfl

/-- C3: the round-trip law is claimed for every supported type token
including the filepath forms, but no filepath token parses at all: the
`'@'.split(input)` slip makes `DJ_Type.from_string` raise `ValueError` on
every token containing `@`, so `from_string(from_string(t).make())` is
undefined for the filepath fragment of the grammar. -/
theorem from_string_filepath_no_roundtrip :
    DJ_Type.from_string "filepath@local".data = .error Err.valueError := rfl

/-- C4: the claim states that the unsigned suffix handling strips exactly
the literal suffix `' unsigned'` and nothing else.  Evaluating the code on
the legitimate token `'double unsigned'` shows otherwise:
`input.rstrip(' unsigned')` removes trailing characters drawn from the
character SET `{' ','u','n','s','i','g','e','d'}`, mangling `double` to
`doubl`, which fails the `DATATYPES` validation with `ValidationError`
instead of yielding datatype `double` with `unsigned = true`. -/
theorem from_string_double_unsigned_mangled :
    DJ_Type.from_string "double unsigned".data = .error Err.validationError := rfl

/-- C5 counterexample: the claim states that `Table.make(lang)` fails with
an `UnsupportedDialect` error for every unrecognized dialect and never
returns a non-error result; but `make` simply falls off the end of the
Python function and returns `None` (modelled `none`) — a silent non-error
result, with no exception raised. -/
theorem make_rust_returns_none : Table.make c5Table "rust".data = none := rfl

/-- C5 (amended): for every `Table` and every dialect string other than
exactly `'python'` and case-insensitive `'matlab'`, `Table.make` returns
Python `None` (no output); it does not raise and does not fall back to a
default dialect. -/
theorem make_unrecognized_dialect_none (t : Table) (lang : Str)
    (h1 : ¬lang = "python".data) (h2 : ¬lowerStr lang = "matlab".data) :
    Table.make t lang = none := by
  unfold Table.make
  rw [if_neg h1, if_neg h2]

/-- C5 witness: the amended statement applied at a concrete table and
dialect. -/
theorem make_unrecognized_dialect_none_witness :
    Table.make c5Table "java".data = none :=
  make_unrecognized_dialect_none c5Table "java".data (by decide) (by decide)

/-- C6: fail-fast propagation — whenever the lines of a definition body
contain a first failing line (`bad`, with every earlier line processed
successfully), `Table.from_definition` returns exactly that line's
row-level error, unchanged and unwrapped, and no partial `Table` is
produced. -/
theorem from_definition_fail_fast (name s : Str) (tier : Option Str)
    (good : List Str) (bad : Str) (rest : List Str) (st : TableState) (e : Err)
    (hsplit : splitOnChar '\n' s = good ++ bad :: rest)
    (hgood : procLines initState good = .ok st)
    (hbad : procLine st bad = .error e) :
    Table.from_definition name s tier = .error e := by
  have hrest : procLines st (bad :: rest) = .error e := by
    rw [procLines_cons, hbad]
  rw [from_definition_eq, hsplit, procLines_append, hgood]
  dsimp only
  rw [hrest]

/-- C6 witness: a body whose second key line `???` is malformed fails with
that line's `pyparsing` error; the valid first key line is not observable
in any result. -/
theorem from_definition_fail_fast_witness :
    Table.from_definition "Foo".data "a : int\n???".data none =
      .error Err.pyparsingError :=
  from_definition_fail_fast "Foo".data "a : int\n???".data none
    ["a : int".data] "???".data [] c6State Err.pyparsingError rfl rfl rfl

/-- C7: a line of index-declaration form (`index (...)` or
`unique index (...)` over a column list), processed by the assembler loop
in either section (the state, and with it the active section, is
arbitrary), is routed to `Attribute.from_string`, which rejects it with
`NotImplementedError` (the unsupported-construct failure); it is neither
silently dropped nor turned into an attribute row. -/
theorem index_line_unsupported (st : TableState) (l : Str)
    (h : isIndexDeclForm l = true) :
    Attribute.from_string l = .error Err.notImplemented ∧
      procLine st l = .error Err.notImplemented := by
  obtain ⟨hne, hhash, hdiv, harrow, hattr, hstrip⟩ := indexForm_line_facts l h
  refine ⟨hattr, ?_⟩
  unfold procLine
  rw [hstrip]
  unfold procStripped
  rw [if_neg hne]
  simp only [hhash, hdiv, harrow, hattr, Bool.false_eq_true, if_false]
  rfl

/-- C7 witness: the index theorem applied to the concrete line
`unique index (a, b)`. -/
theorem index_line_unsupported_witness :
    Attribute.from_string "unique index (a, b)".data = .error Err.notImplemented ∧
      procLine initState "unique index (a, b)".data = .error Err.notImplemented :=
  index_line_unsupported initState "unique index (a, b)".data (by decide)

/-- C8 counterexample: the claim states that a body with no key line before
the divider is rejected; but with a valid tier supplied,
`Table.from_definition` succeeds and returns a `Table` whose `keys` is the
empty list — pydantic accepts an empty `List`. -/
theorem empty_keys_accepted :
    Table.from_definition "Foo".data "---\nfield : int".data
        (some "Manual".data) = .ok c8Table ∧ c8Table.keys = [] :=
  ⟨rfl, rfl⟩

/-- C8 (amended): `Table.from_definition` does not reject an empty key
section — for every body whose first line is the divider, with a
recognized tier supplied and the remaining lines processed successfully,
it returns a `Table` with `keys = []`. -/
theorem from_definition_empty_keys_ok (name s tval : Str) (rest : List Str)
    (st : TableState)
    (hsplit : splitOnChar '\n' s = "---".data :: rest)
    (hrest : procLines ⟨true, none, [], []⟩ rest = .ok st)
    (htier : tval ∈ TIERS) :
    Table.from_definition name s (some tval) =
      .ok ⟨name, tval, st.comment, [], st.attrs⟩ := by
  have hkeys : st.keys = [] :=
    procLines_keys_of_passed rest ⟨true, none, [], []⟩ st rfl hrest
  have hdiv : procLine initState "---".data = .ok ⟨true, none, [], []⟩ := rfl
  rw [from_definition_eq, hsplit, procLines_cons, hdiv]
  dsimp only
  rw [hrest]
  dsimp only
  unfold mkTableV
  rw [Option.getD_some, if_pos htier, hkeys]

/-- C8 witness: the amended statement applied at a concrete body and tier. -/
theorem from_definition_empty_keys_ok_witness :
    Table.from_definition "Bar".data "---\nx : float".data (some "Lookup".data) =
      .ok ⟨"Bar".data, "Lookup".data, none, [],
           [Row.attr ⟨"x".data, ⟨"float".data, none, false⟩, some [], none⟩]⟩ :=
  from_definition_empty_keys_ok "Bar".data "---\nx : float".data "Lookup".data
    ["x : float".data]
    ⟨true, none, [], [Row.attr ⟨"x".data, ⟨"float".data, none, false⟩, some [], none⟩]⟩
    rfl rfl (by decide)

/-- C9 counterexample: the claim states that only the first `#` line before
any key line is captured and that a later `#` line never replaces it; but
on `c9Body` the captured comment is `second`, the later `#` line, not the
leading `first`. -/
theorem later_hash_replaces_comment :
    Table.from_definition "Foo".data c9Body (some "Manual".data) = .ok c9Table ∧
      c9Table.comment = some ⟨"second".data⟩ :=
  ⟨rfl, rfl⟩

/-- C9 (amended): every `#` line, wherever it appears in the body,
re-captures the table comment, so the comment of a successfully parsed
table is the parse of the LAST `#` line of the body (and `None` when there
is no `#` line); a later `#` line therefore does replace an earlier one. -/
theorem table_comment_is_last_hash (name s : Str) (tier : Option Str) (t : Table)
    (h : Table.from_definition name s tier = .ok t) :
    t.comment =
      (match lastHashLine (splitOnChar '\n' s) with
       | some x => (Comment.from_string x).toOption
       | none => none) := by
  rw [from_definition_eq] at h
  cases hp : procLines initState (splitOnChar '\n' s) with
  | error e => rw [hp] at h; exact absurd h (by simp)
  | ok st =>
    rw [hp] at h
    dsimp only at h
    unfold mkTableV at h
    split at h
    · have hcom := procLines_comment (splitOnChar '\n' s) initState st hp
      cases h
      exact hcom
    · exact absurd h (by simp)

/-- C9 witness: the amended statement applied at the concrete body. -/
theorem table_comment_is_last_hash_witness :
    c9Table.comment =
      (match lastHashLine (splitOnChar '\n' c9Body) with
       | some x => (Comment.from_string x).toOption
       | none => none) :=
  table_comment_is_last_hash "Foo".data c9Body (some "Manual".data) c9Table rfl

/-- C10: the assembler routes on the substring `->` anywhere in the line,
not only on a leading marker — so every line of attribute shape
`name : type # comment` whose trailing comment contains `->` (the name
made of identifier characters, the line trimmed and not containing the
divider token) is handed to `Dependency.from_string`, which fails with the
dependency `ParseError`; the table parse therefore fails instead of
producing an attribute row. -/
theorem arrow_in_comment_misrouted (st : TableState) (n t c : Str)
    (h1 : n ≠ []) (h2 : n.all isNameBody = true)
    (h3 : containsSubstr c "->".data = true)
    (h4 : containsSubstr (n ++ " : ".data ++ t ++ " # ".data ++ c) "---".data = false)
    (h5 : isPySpace (c.getLastD ' ') = false) :
    containsSubstr (n ++ " : ".data ++ t ++ " # ".data ++ c) "->".data = true ∧
      procLine st (n ++ " : ".data ++ t ++ " # ".data ++ c) =
        .error (.parseError dependencyFormat
          (n ++ " : ".data ++ t ++ " # ".data ++ c)) := by
  cases n with
  | nil => exact absurd rfl h1
  | cons a n2 =>
    have ha : isNameBody a = true :=
      List.all_eq_true.mp h2 a (List.mem_cons_self a n2)
    set L := (a :: n2) ++ " : ".data ++ t ++ " # ".data ++ c with hL
    have hassoc : L = ((a :: n2) ++ " : ".data ++ t ++ " # ".data) ++ c := by
      simp [hL, List.append_assoc]
    have hc_ne : c ≠ [] := ne_nil_of_containsSubstr c '-' ['>'] h3
    have harrow : containsSubstr L "->".data = true := by
      rw [hassoc]
      exact containsSubstr_append_right _ c _ h3
    have hstrip : stripStr L = L := by
      apply stripStr_eq_self
      · exact isNameBody_not_space a ha
      · rw [List.getLastD_eq_getLast?, hassoc,
          List.getLast?_append_of_ne_nil _ hc_ne, ← List.getLastD_eq_getLast?]
        exact h5
    have hdep : Dependency.from_string L = .error (.parseError dependencyFormat L) := by
      unfold Dependency.from_string
      have hsw : startsWithStr L "-> ".data = false :=
        startsWith_cons_false a _ '-' ['>', ' '] (isNameBody_ne_dash a ha)
      rw [hsw]
      rfl
    refine ⟨harrow, ?_⟩
    unfold procLine
    rw [hstrip]
    unfold procStripped
    have hp1 : ¬(L = []) := by simp [hL]
    have hswf : startsWithStr L "#".data = false :=
      startsWith_cons_false a _ '#' [] (isNameBody_ne_hash a ha)
    have hp2 : ¬(startsWithStr L "#".data = true) := by
      rw [hswf]
      simp
    have hp3 : ¬(containsSubstr L "---".data = true) := by
      rw [h4]
      simp
    rw [if_neg hp1, if_neg hp2, if_neg hp3, if_pos harrow, hdep]
    rfl

/-- C10 witness: the misrouting theorem applied at the concrete line
`a : int # see -> other`. -/
theorem arrow_in_comment_misrouted_witness :
    containsSubstr ("a".data ++ " : ".data ++ "int".data ++ " # ".data
        ++ "see -> other".data) "->".data = true ∧
      procLine initState ("a".data ++ " : ".data ++ "int".data ++ " # ".data
        ++ "see -> other".data) =
        .error (.parseError dependencyFormat
          ("a".data ++ " : ".data ++ "int".data ++ " # ".data
            ++ "see -> other".data)) :=
  arrow_in_comment_misrouted initState "a".data "int".data "see -> other".data
    (by decide) (by decide) (by decide) (by decide) (by decide)

end DJBabel
